import Mathlib

set_option maxHeartbeats 1000000

namespace RedLavalink

/-!
Shallow embedding of `lavalink/node.py` (Red-Lavalink).

The module-level registry `_nodes : Dict[Node, List[int]]` maps each node to
the list of guild ids assigned to it.  Python dicts preserve insertion order,
so the registry is modelled as an association list `List (Nat × List Nat)`
whose order is the registration order; node objects are identified by `Nat`.
-/

/-- Iteration of the `for node, guild_ids in _nodes.items()` loop inside
`get_node`.  The accumulator `cnt`/`least` models the local variables
`guild_count` (initially the float literal `1e10`, exact on integers below
`2 ** 53`) and `least_used` (initially `None`).  The first component of the
result is the early-returned node when `guild_id in guild_ids` fires. -/
def getNodeLoop (g : Nat) : List (Nat × List Nat) → Nat → Option Nat → Option Nat × Option Nat
  | [], _, least => (none, least)
  | (n, gs) :: rest, cnt, least =>
    if gs.length < cnt then
      (if g ∈ gs then (some n, some n) else getNodeLoop g rest gs.length (some n))
    else
      (if g ∈ gs then (some n, least) else getNodeLoop g rest cnt least)

/-- Pure argmin accumulator: what `least_used` holds after running the
`get_node` loop when no early return fires. -/
def foldLeast : List (Nat × List Nat) → Nat → Option Nat → Option Nat
  | [], _, least => least
  | (n, gs) :: rest, cnt, least =>
    if gs.length < cnt then foldLeast rest gs.length (some n)
    else foldLeast rest cnt least

/-- Mutation `_nodes[least_used].append(guild_id)`: append `g` to the guild
list of every registry entry whose key is `n` (dict keys are unique, so at
most one entry matches). -/
def appendGuild (pool : List (Nat × List Nat)) (n : Nat) (g : Nat) : List (Nat × List Nat) :=
  pool.map fun p => if p.1 = n then (p.1, p.2 ++ [g]) else p

/-- Embedding of the module-level function `get_node(guild_id)`.  Returns the
chosen node (or `Except.error ()` for the `KeyError` raised by
`_nodes[None]` when `least_used` is still `None`) together with the registry
after the call. -/
def get_node (pool : List (Nat × List Nat)) (g : Nat) : Except Unit Nat × List (Nat × List Nat) :=
  match getNodeLoop g pool 10000000000 none with
  | (some n, _) => (Except.ok n, pool)
  | (none, some n) => (Except.ok n, appendGuild pool n g)
  | (none, none) => (Except.error (), pool)

/-- Count of registry entries whose guild list contains `g`.  The invariant
claimed by the spec is that this count never exceeds one. -/
def countAssigned (g : Nat) : List (Nat × List Nat) → Nat
  | [] => 0
  | p :: rest => (if g ∈ p.2 then 1 else 0) + countAssigned g rest

/-- Dict assignment `_nodes[self] = []` performed by `Node.__init__`: if the
key is already present its value is overwritten in place, otherwise a new
entry is appended (insertion order). -/
def dictInsert (n : Nat) (pool : List (Nat × List Nat)) : List (Nat × List Nat) :=
  if pool.any fun p => p.1 == n then
    pool.map fun p => if p.1 = n then (p.1, ([] : List Nat)) else p
  else pool ++ [(n, [])]

/-- Dict deletion `del _nodes[self]` performed by `Node.disconnect`. -/
def removeNode (n : Nat) (pool : List (Nat × List Nat)) : List (Nat × List Nat) :=
  pool.filter fun p => p.1 != n

/-- Operations that mutate the registry: node registration
(`Node.__init__`), guild assignment (`get_node`), and node removal
(`Node.disconnect`). -/
inductive PoolOp where
  | register (n : Nat)
  | assign (g : Nat)
  | remove (n : Nat)

/-- Effect of one registry operation on the pool. -/
def applyOp (pool : List (Nat × List Nat)) : PoolOp → List (Nat × List Nat)
  | PoolOp.register n => dictInsert n pool
  | PoolOp.assign g => (get_node pool g).2
  | PoolOp.remove n => removeNode n pool

/-- Registry reached from the initial empty `_nodes` by a sequence of
operations. -/
def runOps (ops : List PoolOp) : List (Nat × List Nat) :=
  ops.foldl applyOp []

/-- Well-formedness of the registry: dict keys are unique and every guild id
is assigned to at most one node. -/
def WF (pool : List (Nat × List Nat)) : Prop :=
  (pool.map Prod.fst).Nodup ∧ ∀ g, countAssigned g pool ≤ 1

/-- Per-node connection state: `ws` models the `_ws` attribute (`none` before
the first connect, `some b` a websocket handle whose `open` flag is `b`),
`queue` models `_queue`, and `sent` is the transcript of payloads handed to
`self._ws.send` (what the transport receives, in order). -/
structure NodeRec where
  ws : Option Bool
  queue : List Nat
  sent : List Nat
  deriving DecidableEq

/-- Test `self._ws is None or not self._ws.open` (negated): whether the
transport is usable for a direct send. -/
def wsIsOpen : Option Bool → Bool
  | none => false
  | some b => b

/-- Embedding of `Node.send`: transmit directly when the transport is open,
otherwise append the payload to the tail of the outbound queue. -/
def send (r : NodeRec) (d : Nat) : NodeRec :=
  if wsIsOpen r.ws then { r with sent := r.sent ++ [d] }
  else { r with queue := r.queue ++ [d] }

/-- Tail of `Node.connect` after `_multi_try_connect` succeeds: the transport
is open, and the `for data in self._queue: await self.send(data)` loop
re-sends every queued payload.  The loop does not clear `_queue`. -/
def connectFlush (r : NodeRec) : NodeRec :=
  ({ r with ws := some true } : NodeRec).queue.foldl send { r with ws := some true }

/-- Incoming op values recognized by the `LavalinkIncomingOp` enum. -/
inductive LavalinkIncomingOp where
  | EVENT
  | PLAYER_UPDATE
  | STATS
  deriving DecidableEq

/-- Enum lookup `LavalinkIncomingOp(raw_op)` on `data.get('op')`:
`ValueError` on an unrecognized value is modelled by `none`. -/
def LavalinkIncomingOp.fromRaw : Option String → Option LavalinkIncomingOp
  | none => none
  | some s =>
    if s = "event" then some LavalinkIncomingOp.EVENT
    else if s = "playerUpdate" then some LavalinkIncomingOp.PLAYER_UPDATE
    else if s = "stats" then some LavalinkIncomingOp.STATS
    else none

/-- Track event names recognized by the `LavalinkEvents` enum. -/
inductive LavalinkEvents where
  | TRACK_END
  | TRACK_EXCEPTION
  | TRACK_STUCK
  deriving DecidableEq

/-- Enum lookup `LavalinkEvents(data.get('type'))`. -/
def LavalinkEvents.fromRaw : Option String → Option LavalinkEvents
  | none => none
  | some s =>
    if s = "TrackEndEvent" then some LavalinkEvents.TRACK_END
    else if s = "TrackExceptionEvent" then some LavalinkEvents.TRACK_EXCEPTION
    else if s = "TrackStuckEvent" then some LavalinkEvents.TRACK_STUCK
    else none

/-- Nested `state` object of a `playerUpdate` frame; each field is `none`
when the key is absent. -/
structure StateObj where
  position : Option Int
  time : Option Int
  deriving DecidableEq

/-- Nested `memory` object of a `stats` frame. -/
structure MemoryObj where
  reservable : Option Int
  used : Option Int
  free : Option Int
  allocated : Option Int
  deriving DecidableEq

/-- Nested `cpu` object of a `stats` frame. -/
structure CPUObj where
  cores : Option Int
  systemLoad : Option Int
  lavalinkLoad : Option Int
  deriving DecidableEq

/-- Incoming JSON frame, restricted to the keys the dispatcher reads;
`data.get(k)` yields `none` when the key is absent. -/
structure RawFrame where
  op : Option String := none
  type : Option String := none
  state : Option StateObj := none
  memory : Option MemoryObj := none
  players : Option Int := none
  playingPlayers : Option Int := none
  cpu : Option CPUObj := none
  uptime : Option Int := none
  deriving DecidableEq

/-- Decoded `PlayerState` namedtuple. -/
structure PlayerState where
  position : Int
  time : Int
  deriving DecidableEq

/-- Decoded `MemoryInfo` namedtuple. -/
structure MemoryInfo where
  reservable : Int
  used : Int
  free : Int
  allocated : Int
  deriving DecidableEq

/-- Decoded `CPUInfo` namedtuple. -/
structure CPUInfo where
  cores : Int
  systemLoad : Int
  lavalinkLoad : Int
  deriving DecidableEq

/-- Decoded `Stats` object.  `Stats.__init__` stores `players`,
`active_players` and `uptime` without validation, so a missing key is kept
as `none`; only `memory` and `cpu` go through namedtuple keyword expansion. -/
structure Stats where
  memory : MemoryInfo
  players : Option Int
  active_players : Option Int
  cpu_info : CPUInfo
  uptime : Option Int
  deriving DecidableEq

/-- Keyword expansion `MemoryInfo(**memory)`: `TypeError` (modelled as
`Except.error`) when the object is absent or any of the four required keys
is missing. -/
def decodeMemory : Option MemoryObj → Except Unit MemoryInfo
  | some ⟨some r, some u, some f, some a⟩ =>
    Except.ok { reservable := r, used := u, free := f, allocated := a }
  | _ => Except.error ()

/-- Keyword expansion `CPUInfo(**cpu)`. -/
def decodeCPU : Option CPUObj → Except Unit CPUInfo
  | some ⟨some c, some s, some l⟩ =>
    Except.ok { cores := c, systemLoad := s, lavalinkLoad := l }
  | _ => Except.error ()

/-- Keyword expansion `PlayerState(**data.get('state'))`. -/
def decodeState : Option StateObj → Except Unit PlayerState
  | some ⟨some p, some t⟩ => Except.ok { position := p, time := t }
  | _ => Except.error ()

/-- Payload handed to the upward event callback `event_handler`. -/
inductive Decoded where
  | event (e : LavalinkEvents)
  | playerUpdate (s : PlayerState)
  | stats (s : Stats)
  deriving DecidableEq

/-- One invocation of `event_handler(op, decoded, raw_frame)`. -/
abbrev CbCall := LavalinkIncomingOp × Decoded × RawFrame

/-- Embedding of the dispatch task `Node._handle_op`: the result is the list
of callback invocations it performs, or `Except.error ()` when the decode
step raises (`TypeError` from keyword expansion). -/
def handleOp : LavalinkIncomingOp → RawFrame → Except Unit (List CbCall)
  | LavalinkIncomingOp.EVENT, f =>
    match LavalinkEvents.fromRaw f.type with
    | none => Except.ok []
    | some e => Except.ok [(LavalinkIncomingOp.EVENT, Decoded.event e, f)]
  | LavalinkIncomingOp.PLAYER_UPDATE, f =>
    match decodeState f.state with
    | Except.error _ => Except.error ()
    | Except.ok s => Except.ok [(LavalinkIncomingOp.PLAYER_UPDATE, Decoded.playerUpdate s, f)]
  | LavalinkIncomingOp.STATS, f =>
    match decodeMemory f.memory, decodeCPU f.cpu with
    | Except.ok m, Except.ok c =>
      Except.ok [(LavalinkIncomingOp.STATS,
        Decoded.stats { memory := m, players := f.players, active_players := f.playingPlayers,
                        cpu_info := c, uptime := f.uptime }, f)]
    | _, _ => Except.error ()

/-- Classification step of one receive-loop iteration in `Node.listener`:
`none` when the op is unrecognized (`ValueError` from the enum: logged,
no dispatch task spawned), otherwise the result of the spawned
`_handle_op` task. -/
def listenerStep (f : RawFrame) : Option (Except Unit (List CbCall)) :=
  match LavalinkIncomingOp.fromRaw f.op with
  | none => none
  | some op => some (handleOp op f)

/-- One item produced by `await self._ws.recv()`: a decoded JSON frame, or a
`ConnectionClosed` exception. -/
inductive InMsg where
  | frame (f : RawFrame)
  | closed
  deriving DecidableEq

/-- Embedding of the receive loop of `Node.listener`: the results of the
dispatch tasks it spawns, in spawn order.  `ConnectionClosed` breaks the
loop; a failing dispatch task does not stop it. -/
def listener : List InMsg → List (Except Unit (List CbCall))
  | [] => []
  | InMsg.closed :: _ => []
  | InMsg.frame f :: rest =>
    match listenerStep f with
    | none => listener rest
    | some r => r :: listener rest

/-- Process-wide state relevant to shutdown: the module-level `SHUTDOWN`
event, the `_nodes` registry, and the per-node connection objects (keyed by
the same node identities as the registry). -/
structure GlobalState where
  shutdown : Bool
  registry : List (Nat × List Nat)
  conns : List (Nat × NodeRec)
  deriving DecidableEq

/-- Read the connection object of node `n`. -/
def lookupConn (l : List (Nat × NodeRec)) (n : Nat) : Option NodeRec :=
  (l.find? fun p => p.1 == n).map Prod.snd

/-- Update the connection object of node `n` in place. -/
def setConn (n : Nat) (f : NodeRec → NodeRec) (l : List (Nat × NodeRec)) : List (Nat × NodeRec) :=
  l.map fun p => if p.1 = n then (p.1, f p.2) else p

/-- Effect of `self._ws.close()` on a websocket handle. -/
def closeWs (r : NodeRec) : NodeRec := { r with ws := some false }

/-- Embedding of `Node.disconnect`: set `SHUTDOWN`, then `self._ws.close()`
(an `AttributeError` when `_ws` is still `None`: modelled by the `false`
result, with everything mutated so far kept), then `del _nodes[self]` (a
`KeyError` when the node is not registered). -/
def disconnect (g : GlobalState) (n : Nat) : GlobalState × Bool :=
  match lookupConn g.conns n with
  | none => ({ g with shutdown := true }, false)
  | some r =>
    match r.ws with
    | none => ({ g with shutdown := true }, false)
    | some _ =>
      if g.registry.any fun p => p.1 == n then
        ({ g with shutdown := true,
                  conns := setConn n closeWs g.conns,
                  registry := g.registry.filter fun p => p.1 != n }, true)
      else ({ g with shutdown := true, conns := setConn n closeWs g.conns }, false)

/-- Embedding of a successful `Node.connect`: the first statement is the
unconditional `SHUTDOWN.clear()`; then `_multi_try_connect` opens the
transport and the outbound queue is flushed (`connectFlush`). -/
def connect (g : GlobalState) (n : Nat) : GlobalState :=
  { g with shutdown := false, conns := setConn n connectFlush g.conns }

/-- Embedding of `Node._reconnect`, the task spawned when `Node.listener`
exits: when `SHUTDOWN` is set it returns at once; otherwise it calls
`connect()`.  The boolean records whether a connection attempt was made
(the node re-entering the `Connecting` state). -/
def reconnect (g : GlobalState) (n : Nat) : GlobalState × Bool :=
  if g.shutdown then (g, false) else (connect g n, true)

/-- Registry holding a single node whose assignment list has exactly
`10 ** 10` entries, the value of the float sentinel `1e10` that `get_node`
uses as its initial minimum. -/
def bigPool : List (Nat × List Nat) := [(0, List.replicate 10000000000 1)]

/-- Registry used by the witness: node 0 has one guild, node 1 has none. -/
def pool0 : List (Nat × List Nat) := [(0, [5]), (1, [])]

/-- Frame with an op value no enum member carries. -/
def frameUnknownOp : RawFrame := { op := some "banana" }

/-- Event frame with an unrecognized nested type. -/
def frameUnknownType : RawFrame := { op := some "event", type := some "WeirdEvent" }

/-- PlayerUpdate frame carrying no state object at all. -/
def frameNoState : RawFrame := { op := some "playerUpdate" }

/-- Stats frame with complete memory and cpu objects but no players,
playingPlayers or uptime keys. -/
def statsNoPlayers : RawFrame :=
  { op := some "stats",
    memory := some { reservable := some 1, used := some 2, free := some 3,
                     allocated := some 4 },
    cpu := some { cores := some 1, systemLoad := some 2, lavalinkLoad := some 3 } }

/-- State holding one registered, connected node. -/
def gOpen : GlobalState :=
  { shutdown := false,
    registry := [(5, [7]), (6, [])],
    conns := [(5, { ws := some true, queue := [], sent := [] })] }

/-- State holding one registered node that never connected. -/
def gNoWs : GlobalState :=
  { shutdown := false,
    registry := [(5, [7])],
    conns := [(5, { ws := none, queue := [], sent := [] })] }

end RedLavalink

namespace RedLavalink

/-- When the requested guild is assigned to no node, the `get_node` loop
performs no early return and its accumulator agrees with the pure argmin
fold. -/
theorem getNodeLoop_unassigned (g : Nat) (pool : List (Nat × List Nat)) :
    ∀ (cnt : Nat) (least : Option Nat), (∀ p ∈ pool, g ∉ p.2) →
      getNodeLoop g pool cnt least = (none, foldLeast pool cnt least) := by
  induction pool with
  | nil => intro cnt least _; rfl
  | cons hd rest ih =>
    intro cnt least h
    obtain ⟨n, gs⟩ := hd
    have hg : g ∉ gs := h (n, gs) (by simp)
    have hr : ∀ p ∈ rest, g ∉ p.2 := fun p hp => h p (by simp [hp])
    by_cases hlen : gs.length < cnt <;>
      simp [getNodeLoop, foldLeast, hlen, hg, ih _ _ hr]

/-- When the `get_node` loop finishes without an early return, the requested
guild was in no node's list. -/
theorem getNodeLoop_none_not_mem (g : Nat) (pool : List (Nat × List Nat)) :
    ∀ (cnt : Nat) (least l : Option Nat),
      getNodeLoop g pool cnt least = (none, l) → ∀ p ∈ pool, g ∉ p.2 := by
  induction pool with
  | nil => intro _ _ _ _ p hp; simp at hp
  | cons hd rest ih =>
    intro cnt least l h p hp
    obtain ⟨n, gs⟩ := hd
    by_cases hmem : g ∈ gs
    · by_cases hlen : gs.length < cnt <;> simp [getNodeLoop, hlen, hmem] at h
    · rcases List.mem_cons.mp hp with rfl | hp
      · exact hmem
      · by_cases hlen : gs.length < cnt
        · exact ih _ _ _ (by simpa [getNodeLoop, hlen, hmem] using h) p hp
        · exact ih _ _ _ (by simpa [getNodeLoop, hlen, hmem] using h) p hp

/-- When the requested guild is assigned to a unique node, the loop
early-returns that node. -/
theorem getNodeLoop_assigned_fst (g n : Nat) (pool : List (Nat × List Nat)) :
    ∀ (cnt : Nat) (least : Option Nat),
      (∃ p ∈ pool, g ∈ p.2) → (∀ p ∈ pool, g ∈ p.2 → p.1 = n) →
      (getNodeLoop g pool cnt least).1 = some n := by
  induction pool with
  | nil => rintro _ _ ⟨p, hp, _⟩ _; simp at hp
  | cons hd rest ih =>
    intro cnt least hex hall
    obtain ⟨m, gs⟩ := hd
    by_cases hmem : g ∈ gs
    · have hmn : m = n := hall (m, gs) (by simp) hmem
      subst hmn
      by_cases hlen : gs.length < cnt <;> simp [getNodeLoop, hlen, hmem]
    · obtain ⟨p, hp, hpg⟩ := hex
      rcases List.mem_cons.mp hp with rfl | hp
      · exact absurd hpg hmem
      · have hex2 : ∃ p ∈ rest, g ∈ p.2 := ⟨p, hp, hpg⟩
        have hall2 : ∀ p ∈ rest, g ∈ p.2 → p.1 = n := fun q hq => hall q (by simp [hq])
        by_cases hlen : gs.length < cnt <;>
          simp [getNodeLoop, hlen, hmem, ih _ _ hex2 hall2]

/-- The argmin accumulator is unchanged when no entry improves on the
running minimum. -/
theorem foldLeast_const (pool : List (Nat × List Nat)) :
    ∀ (cnt : Nat) (least : Option Nat), (∀ p ∈ pool, cnt ≤ p.2.length) →
      foldLeast pool cnt least = least := by
  induction pool with
  | nil => intro _ _ _; rfl
  | cons hd rest ih =>
    intro cnt least h
    obtain ⟨n, gs⟩ := hd
    have h0 : ¬ gs.length < cnt := not_lt.mpr (h (n, gs) (by simp))
    simp [foldLeast, h0, ih _ _ (fun p hp => h p (by simp [hp]))]

/-- When some entry is below the running minimum, the argmin fold returns
the earliest entry of minimal list length: strictly smaller than every
earlier entry, no larger than every later one. -/
theorem foldLeast_min (pool : List (Nat × List Nat)) :
    ∀ (cnt : Nat) (least : Option Nat), (∃ p ∈ pool, p.2.length < cnt) →
      ∃ pre n gs post, pool = pre ++ (n, gs) :: post ∧ gs.length < cnt ∧
        (∀ p ∈ pre, gs.length < p.2.length) ∧ (∀ p ∈ post, gs.length ≤ p.2.length) ∧
        foldLeast pool cnt least = some n := by
  induction pool with
  | nil => rintro _ _ ⟨p, hp, _⟩; simp at hp
  | cons hd rest ih =>
    intro cnt least hex
    obtain ⟨m, gs0⟩ := hd
    by_cases hlen : gs0.length < cnt
    · by_cases hrest : ∃ p ∈ rest, p.2.length < gs0.length
      · obtain ⟨pre, n, gs, post, hdec, hcnt, hpre, hpost, hfold⟩ :=
          ih gs0.length (some m) hrest
        refine ⟨(m, gs0) :: pre, n, gs, post, by rw [hdec]; rfl,
          lt_trans hcnt hlen, ?_, hpost, ?_⟩
        · intro p hp
          rcases List.mem_cons.mp hp with rfl | hp
          · exact hcnt
          · exact hpre p hp
        · simp [foldLeast, hlen, hfold]
      · push_neg at hrest
        refine ⟨[], m, gs0, rest, rfl, hlen, by simp, hrest, ?_⟩
        simp [foldLeast, hlen, foldLeast_const rest _ _ hrest]
    · obtain ⟨p, hp, hplen⟩ := hex
      rcases List.mem_cons.mp hp with rfl | hp
      · exact absurd hplen hlen
      · obtain ⟨pre, n, gs, post, hdec, hcnt, hpre, hpost, hfold⟩ :=
          ih cnt least ⟨p, hp, hplen⟩
        have hcnt0 : gs.length < gs0.length := lt_of_lt_of_le hcnt (not_lt.mp hlen)
        refine ⟨(m, gs0) :: pre, n, gs, post, by rw [hdec]; rfl, hcnt, ?_, hpost, ?_⟩
        · intro q hq
          rcases List.mem_cons.mp hq with rfl | hq
          · exact hcnt0
          · exact hpre q hq
        · simp [foldLeast, hlen, hfold]

/-- A node produced by the argmin fold is either the seed or one of the
registry keys. -/
theorem foldLeast_mem_keys (pool : List (Nat × List Nat)) :
    ∀ (cnt : Nat) (least : Option Nat) (n : Nat), foldLeast pool cnt least = some n →
      least = some n ∨ n ∈ pool.map Prod.fst := by
  induction pool with
  | nil => intro _ _ _ h; exact Or.inl h
  | cons hd rest ih =>
    intro cnt least n h
    obtain ⟨m, gs⟩ := hd
    by_cases hlen : gs.length < cnt
    · rcases ih _ _ n (by simpa [foldLeast, hlen] using h) with h1 | h1
      · right
        simp only [Option.some.injEq] at h1
        simp [h1]
      · right; simp [h1]
    · rcases ih _ _ n (by simpa [foldLeast, hlen] using h) with h1 | h1
      · exact Or.inl h1
      · right; simp [h1]

/-- Appending a guild to node `n` leaves entries with other keys
untouched. -/
theorem appendGuild_noop (n g : Nat) : ∀ (l : List (Nat × List Nat)), (∀ p ∈ l, p.1 ≠ n) →
    appendGuild l n g = l := by
  intro l
  induction l with
  | nil => intro _; rfl
  | cons hd rest ih =>
    intro h
    show (if hd.1 = n then (hd.1, hd.2 ++ [g]) else hd) :: appendGuild rest n g = hd :: rest
    rw [if_neg (h hd (by simp)), ih (fun p hp => h p (by simp [hp]))]

/-- With unique keys, appending a guild to node `n` rewrites exactly the
entry of `n`. -/
theorem appendGuild_decomp (pre post : List (Nat × List Nat)) (n g : Nat) (gs : List Nat)
    (hnd : ((pre ++ (n, gs) :: post).map Prod.fst).Nodup) :
    appendGuild (pre ++ (n, gs) :: post) n g = pre ++ (n, gs ++ [g]) :: post := by
  have hmap : (pre.map Prod.fst ++ n :: post.map Prod.fst).Nodup := by simpa using hnd
  rcases List.nodup_append.mp hmap with ⟨_, hnd2, hdisj⟩
  have hnpre : n ∉ pre.map Prod.fst := fun hmem => hdisj hmem (List.mem_cons_self _ _)
  have hnpost : n ∉ post.map Prod.fst := (List.nodup_cons.mp hnd2).1
  have hpre : ∀ p ∈ pre, p.1 ≠ n := fun p hp hpn =>
    hnpre (by simpa [hpn] using List.mem_map_of_mem Prod.fst hp)
  have hpost : ∀ p ∈ post, p.1 ≠ n := fun p hp hpn =>
    hnpost (by simpa [hpn] using List.mem_map_of_mem Prod.fst hp)
  have hsplit : appendGuild (pre ++ (n, gs) :: post) n g
      = appendGuild pre n g ++ (n, gs ++ [g]) :: appendGuild post n g := by
    simp [appendGuild]
  rw [hsplit, appendGuild_noop n g pre hpre, appendGuild_noop n g post hpost]

/-- C3: on an empty registry, `get_node` fails at once (the `KeyError`
raised by `_nodes[None]`, the `NoNodesAvailable` condition) and the registry
is unchanged. -/
theorem get_node_empty_pool (g : Nat) : get_node [] g = (Except.error (), []) := rfl


/-- A loop run that ends with `least_used` still `None` makes `get_node`
raise the `KeyError` and leave the registry unchanged. -/
theorem get_node_of_loop_none (pool : List (Nat × List Nat)) (g : Nat)
    (h : getNodeLoop g pool 10000000000 none = (none, none)) :
    get_node pool g = (Except.error (), pool) := by
  unfold get_node
  rw [h]

/-- C1 counterexample: on a pool with one registered node whose list length
equals the `1e10` sentinel, `get_node` for a fresh guild returns no node at
all (it raises `KeyError` on `_nodes[None]`), contradicting the claim that
it always returns a node of minimal assignment-set size and appends the
guild. -/
theorem get_node_sentinel_cex :
    (∀ n : Nat, (get_node bigPool 0).1 ≠ Except.ok n) ∧ (get_node bigPool 0).2 = bigPool := by
  have hnotlt : ¬ (List.replicate 10000000000 (1 : Nat)).length < 10000000000 := by
    rw [List.length_replicate]
    exact lt_irrefl _
  have hnotmem : (0 : Nat) ∉ List.replicate 10000000000 (1 : Nat) := by
    rw [List.mem_replicate]
    exact fun h => (by decide : (0 : Nat) ≠ 1) h.2
  have hloop : getNodeLoop 0 bigPool 10000000000 none = (none, none) := by
    show getNodeLoop 0 [(0, List.replicate 10000000000 1)] 10000000000 none = (none, none)
    rw [getNodeLoop, if_neg hnotlt, if_neg hnotmem]
    rfl
  have hmain : get_node bigPool 0 = (Except.error (), bigPool) :=
    get_node_of_loop_none bigPool 0 hloop
  exact ⟨fun n => by rw [hmain]; exact fun h => Except.noConfusion h, by rw [hmain]⟩

/-- C1 (amended): on a registry with unique keys, at least one node, and
every assignment list shorter than the `1e10` sentinel, `get_node` returns
the unique owning node unchanged when the guild is already assigned, and
otherwise returns the earliest node of minimal assignment-list length and
appends the guild to exactly that node's list. -/
theorem get_node_least_loaded (pool : List (Nat × List Nat)) (g : Nat)
    (hne : pool ≠ [])
    (hnd : (pool.map Prod.fst).Nodup)
    (hsmall : ∀ p ∈ pool, p.2.length < 10000000000) :
    (∀ n gs, (n, gs) ∈ pool → g ∈ gs → (∀ p ∈ pool, g ∈ p.2 → p.1 = n) →
      get_node pool g = (Except.ok n, pool)) ∧
    ((∀ p ∈ pool, g ∉ p.2) →
      ∃ pre n gs post, pool = pre ++ (n, gs) :: post ∧
        (∀ p ∈ pre, gs.length < p.2.length) ∧
        (∀ p ∈ post, gs.length ≤ p.2.length) ∧
        get_node pool g = (Except.ok n, pre ++ (n, gs ++ [g]) :: post)) := by
  constructor
  · intro n gs hmem hg hall
    have h1 : (getNodeLoop g pool 10000000000 none).1 = some n :=
      getNodeLoop_assigned_fst g n pool _ _ ⟨(n, gs), hmem, hg⟩ hall
    rcases hloop : getNodeLoop g pool 10000000000 none with ⟨f1, s1⟩
    rw [hloop] at h1
    cases f1 with
    | none => simp at h1
    | some k =>
      have hkn : k = n := by simpa using h1
      subst hkn
      simp [get_node, hloop]
  · intro hun
    have hloop := getNodeLoop_unassigned g pool 10000000000 none hun
    obtain ⟨p0, hp0⟩ := List.exists_mem_of_ne_nil pool hne
    have hex : ∃ p ∈ pool, p.2.length < 10000000000 := ⟨p0, hp0, hsmall _ hp0⟩
    obtain ⟨pre, n, gs, post, hdec, _, hpre, hpost, hfold⟩ :=
      foldLeast_min pool 10000000000 none hex
    refine ⟨pre, n, gs, post, hdec, hpre, hpost, ?_⟩
    have hag : appendGuild pool n g = pre ++ (n, gs ++ [g]) :: post := by
      rw [hdec]
      exact appendGuild_decomp pre post n g gs (by rw [← hdec]; exact hnd)
    simp [get_node, hloop, hfold, hag]


/-- Witness for the amended C1 theorem at a concrete pool and a fresh
guild. -/
theorem get_node_least_loaded_witness :
    ∃ pre n gs post, pool0 = pre ++ (n, gs) :: post ∧
      (∀ p ∈ pre, gs.length < p.2.length) ∧
      (∀ p ∈ post, gs.length ≤ p.2.length) ∧
      get_node pool0 7 = (Except.ok n, pre ++ (n, gs ++ [7]) :: post) :=
  (get_node_least_loaded pool0 7 (by decide) (by decide) (by decide)).2 (by decide)

/-- Keys of a registry are preserved by any rewrite that keeps each entry's
key. -/
theorem keys_map_preserve (f : Nat × List Nat → Nat × List Nat) (hf : ∀ p, (f p).1 = p.1) :
    ∀ l : List (Nat × List Nat), (l.map f).map Prod.fst = l.map Prod.fst := by
  intro l
  induction l with
  | nil => rfl
  | cons hd rest ih => simp [hf hd, ih]

/-- A registry with no entry containing `g` counts zero owners for `g`. -/
theorem countAssigned_zero (g : Nat) : ∀ (l : List (Nat × List Nat)), (∀ p ∈ l, g ∉ p.2) →
    countAssigned g l = 0 := by
  intro l
  induction l with
  | nil => intro _; rfl
  | cons hd rest ih =>
    intro h
    simp [countAssigned, h hd (by simp), ih (fun p hp => h p (by simp [hp]))]

/-- Owner counts never increase under an entry rewrite that adds no new
membership of `g`. -/
theorem countAssigned_map_le (g : Nat) (f : Nat × List Nat → Nat × List Nat)
    (hf : ∀ p, g ∈ (f p).2 → g ∈ p.2) :
    ∀ l, countAssigned g (l.map f) ≤ countAssigned g l := by
  intro l
  induction l with
  | nil => simp [countAssigned]
  | cons hd rest ih =>
    simp only [List.map_cons, countAssigned]
    have hhd : (if g ∈ (f hd).2 then 1 else 0) ≤ (if g ∈ hd.2 then 1 else 0) := by
      by_cases h : g ∈ (f hd).2
      · simp [h, hf hd h]
      · simp [h]
    omega

/-- Owner counts are additive across registry concatenation. -/
theorem countAssigned_append (g : Nat) (l1 l2 : List (Nat × List Nat)) :
    countAssigned g (l1 ++ l2) = countAssigned g l1 + countAssigned g l2 := by
  induction l1 with
  | nil => simp [countAssigned]
  | cons hd rest ih => simp [countAssigned, ih]; omega

/-- Owner counts never increase under registry filtering. -/
theorem countAssigned_filter_le (g : Nat) (f : Nat × List Nat → Bool) :
    ∀ l, countAssigned g (l.filter f) ≤ countAssigned g l := by
  intro l
  induction l with
  | nil => simp [countAssigned]
  | cons hd rest ih =>
    by_cases h : f hd
    · simp [List.filter_cons, h, countAssigned]; omega
    · simp [List.filter_cons, h, countAssigned]; omega

/-- After appending a fresh guild to a registered node of a key-unique
registry, that guild has exactly one owner. -/
theorem countAssigned_appendGuild_self (g : Nat) :
    ∀ (pool : List (Nat × List Nat)) (n : Nat),
      (pool.map Prod.fst).Nodup → n ∈ pool.map Prod.fst → (∀ p ∈ pool, g ∉ p.2) →
      countAssigned g (appendGuild pool n g) = 1 := by
  intro pool
  induction pool with
  | nil => intro n _ hmem _; simp at hmem
  | cons hd rest ih =>
    intro n hnd hmem hun
    rw [List.map_cons] at hnd
    rcases List.nodup_cons.mp hnd with ⟨hhd_notin, hndrest⟩
    show countAssigned g ((if hd.1 = n then (hd.1, hd.2 ++ [g]) else hd) :: appendGuild rest n g) = 1
    by_cases h : hd.1 = n
    · have hrestne : ∀ p ∈ rest, p.1 ≠ n := by
        intro p hp hpn
        exact hhd_notin (by rw [h, ← hpn]; exact List.mem_map_of_mem Prod.fst hp)
      rw [if_pos h, appendGuild_noop n g rest hrestne]
      simp [countAssigned, countAssigned_zero g rest (fun p hp => hun p (by simp [hp]))]
    · have hmem2 : n ∈ rest.map Prod.fst := by
        rcases (by simpa using hmem : n = hd.1 ∨ n ∈ rest.map Prod.fst) with h1 | h1
        · exact absurd h1.symm h
        · exact h1
      rw [if_neg h]
      have hhd2 : g ∉ hd.2 := hun hd (by simp)
      simp [countAssigned, hhd2, ih n hndrest hmem2 (fun p hp => hun p (by simp [hp]))]

/-- Appending guild `g` does not change the owner count of any other
guild. -/
theorem countAssigned_appendGuild_ne (x g n : Nat) (hx : x ≠ g) :
    ∀ pool : List (Nat × List Nat),
      countAssigned x (appendGuild pool n g) = countAssigned x pool := by
  intro pool
  induction pool with
  | nil => rfl
  | cons hd rest ih =>
    show (if x ∈ ((if hd.1 = n then (hd.1, hd.2 ++ [g]) else hd) : Nat × List Nat).2 then 1 else 0)
        + countAssigned x (appendGuild rest n g)
      = (if x ∈ hd.2 then 1 else 0) + countAssigned x rest
    rw [ih]
    congr 1
    by_cases h : hd.1 = n <;> simp [h, List.mem_append, hx]

/-- Every registry operation preserves well-formedness. -/
theorem WF_applyOp (pool : List (Nat × List Nat)) (op : PoolOp) (h : WF pool) :
    WF (applyOp pool op) := by
  obtain ⟨hnd, hcnt⟩ := h
  cases op with
  | register n =>
    show WF (dictInsert n pool)
    unfold dictInsert
    by_cases hany : (pool.any fun p => p.1 == n) = true
    · rw [if_pos hany]
      constructor
      · rw [keys_map_preserve _ (fun p => by by_cases h : p.1 = n <;> simp [h]) pool]
        exact hnd
      · intro x
        refine le_trans (countAssigned_map_le x _ (fun p hp => ?_) pool) (hcnt x)
        by_cases h : p.1 = n
        · simp [h] at hp
        · simpa [h] using hp
    · rw [if_neg hany]
      have hnot : n ∉ pool.map Prod.fst := by
        intro hmem
        rcases List.mem_map.mp hmem with ⟨p, hp, hpn⟩
        exact hany (List.any_eq_true.mpr ⟨p, hp, by simp [hpn]⟩)
      constructor
      · rw [List.map_append]
        simp only [List.map_cons, List.map_nil]
        rw [List.nodup_append]
        exact ⟨hnd, List.nodup_singleton n,
          fun x hx hxn => hnot ((List.mem_singleton.mp hxn) ▸ hx)⟩
      · intro x
        rw [countAssigned_append]
        simpa [countAssigned] using hcnt x
  | assign g =>
    show WF (get_node pool g).2
    rcases hloop : getNodeLoop g pool 10000000000 none with ⟨f1, s1⟩
    cases f1 with
    | some k =>
      have h2 : (get_node pool g).2 = pool := by simp [get_node, hloop]
      rw [h2]; exact ⟨hnd, hcnt⟩
    | none =>
      cases s1 with
      | none =>
        have h2 : (get_node pool g).2 = pool := by simp [get_node, hloop]
        rw [h2]; exact ⟨hnd, hcnt⟩
      | some n =>
        have h2 : (get_node pool g).2 = appendGuild pool n g := by simp [get_node, hloop]
        have hun : ∀ p ∈ pool, g ∉ p.2 := getNodeLoop_none_not_mem g pool _ _ _ hloop
        have hfold : foldLeast pool 10000000000 none = some n := by
          have heq := getNodeLoop_unassigned g pool 10000000000 none hun
          exact ((Prod.ext_iff.mp (hloop.symm.trans heq)).2).symm
        have hmemk : n ∈ pool.map Prod.fst := by
          rcases foldLeast_mem_keys pool _ _ n hfold with h1 | h1
          · exact absurd h1 (by simp)
          · exact h1
        rw [h2]
        constructor
        · have hkeys : (appendGuild pool n g).map Prod.fst = pool.map Prod.fst :=
            keys_map_preserve _ (fun p => by by_cases h : p.1 = n <;> simp [h]) pool
          rw [hkeys]; exact hnd
        · intro x
          by_cases hx : x = g
          · subst hx
            exact le_of_eq (countAssigned_appendGuild_self x pool n hnd hmemk hun)
          · rw [countAssigned_appendGuild_ne x g n hx pool]
            exact hcnt x
  | remove n =>
    show WF (removeNode n pool)
    constructor
    · exact List.Nodup.sublist (List.Sublist.map Prod.fst (List.filter_sublist pool)) hnd
    · intro x
      exact le_trans (countAssigned_filter_le x _ pool) (hcnt x)

/-- Well-formedness is preserved along any operation sequence. -/
theorem WF_runOps_aux : ∀ (ops : List PoolOp) (pool : List (Nat × List Nat)),
    WF pool → WF (ops.foldl applyOp pool) := by
  intro ops
  induction ops with
  | nil => intro pool h; exact h
  | cons op rest ih => intro pool h; exact ih _ (WF_applyOp pool op h)

/-- C4: in every registry state reachable from the empty registry by node
registrations, `get_node` assignments and node removals, each guild id is
assigned to at most one node. -/
theorem guild_assigned_at_most_once (ops : List PoolOp) (g : Nat) :
    countAssigned g (runOps ops) ≤ 1 :=
  (WF_runOps_aux ops [] ⟨by simp, fun x => by simp [countAssigned]⟩).2 g

/-- Sending while the transport is closed only appends to the queue, in
order. -/
theorem foldl_send_closed (cs : List Nat) : ∀ r : NodeRec, wsIsOpen r.ws = false →
    cs.foldl send r = { r with queue := r.queue ++ cs } := by
  induction cs with
  | nil => intro r _; simp
  | cons d rest ih =>
    intro r h
    rw [List.foldl_cons]
    have hsend : send r d = { r with queue := r.queue ++ [d] } := by
      simp [send, h]
    rw [hsend, ih _ (by simpa using h)]
    simp

/-- Sending while the transport is open transmits directly, in order. -/
theorem foldl_send_open (cs : List Nat) : ∀ r : NodeRec, wsIsOpen r.ws = true →
    cs.foldl send r = { r with sent := r.sent ++ cs } := by
  induction cs with
  | nil => intro r _; simp
  | cons d rest ih =>
    intro r h
    rw [List.foldl_cons]
    have hsend : send r d = { r with sent := r.sent ++ [d] } := by
      simp [send, h]
    rw [hsend, ih _ (by simpa using h)]
    simp

/-- Closed form of the connect-time flush: the transport opens, the whole
queue is retransmitted after anything already sent, and the queue itself is
left in place. -/
theorem connectFlush_eq (r : NodeRec) :
    connectFlush r = { r with ws := some true, sent := r.sent ++ r.queue } := by
  unfold connectFlush
  rw [foldl_send_open _ _ (by simp [wsIsOpen])]

/-- C2: commands submitted while the transport is not open are appended to
the queue in submission order and the submission leaves the transport
transcript untouched; a successful connect then hands the whole queue to
the transport in FIFO order, and a send arriving after the flush is
transmitted after all of it. -/
theorem queued_commands_fifo (r0 : NodeRec) (cs : List Nat) (d : Nat)
    (h : wsIsOpen r0.ws = false) :
    (cs.foldl send r0).queue = r0.queue ++ cs ∧
    (cs.foldl send r0).sent = r0.sent ∧
    (connectFlush (cs.foldl send r0)).sent = r0.sent ++ (r0.queue ++ cs) ∧
    (send (connectFlush (cs.foldl send r0)) d).sent = (r0.sent ++ (r0.queue ++ cs)) ++ [d] := by
  rw [foldl_send_closed cs r0 h, connectFlush_eq]
  refine ⟨rfl, rfl, rfl, ?_⟩
  simp [send, wsIsOpen]

/-- Witness for the C2 FIFO theorem: three commands queued on a
never-connected node, then a connect and one later send. -/
theorem queued_commands_fifo_witness :
    (([1, 2, 3] : List Nat).foldl send { ws := none, queue := [], sent := [] }).queue
      = [] ++ [1, 2, 3] ∧
    (([1, 2, 3] : List Nat).foldl send { ws := none, queue := [], sent := [] }).sent = [] ∧
    (connectFlush (([1, 2, 3] : List Nat).foldl send { ws := none, queue := [], sent := [] })).sent
      = [] ++ ([] ++ [1, 2, 3]) ∧
    (send (connectFlush (([1, 2, 3] : List Nat).foldl send
        { ws := none, queue := [], sent := [] })) 9).sent
      = ([] ++ ([] ++ [1, 2, 3])) ++ [9] :=
  queued_commands_fifo { ws := none, queue := [], sent := [] } [1, 2, 3] 9 rfl

/-- C6: the connect-time flush does not clear the queue, so a second
successful reconnection retransmits every previously flushed command. -/
theorem flush_keeps_queue (r : NodeRec) :
    (connectFlush r).queue = r.queue ∧
    (connectFlush (connectFlush r)).sent = (r.sent ++ r.queue) ++ r.queue := by
  constructor <;> simp [connectFlush_eq]

/-- C7: a frame whose op is outside the three recognized values spawns no
dispatch task (so no failure and no callback), and an event frame with an
unrecognized type yields a dispatch that succeeds without invoking the
callback; in both cases the receive loop proceeds with the remaining
frames. -/
theorem unknown_frames_dropped (f : RawFrame) (rest : List InMsg) :
    (LavalinkIncomingOp.fromRaw f.op = none →
      listenerStep f = none ∧ listener (InMsg.frame f :: rest) = listener rest) ∧
    (f.op = some "event" → LavalinkEvents.fromRaw f.type = none →
      listenerStep f = some (Except.ok []) ∧
      listener (InMsg.frame f :: rest) = Except.ok [] :: listener rest) := by
  constructor
  · intro h
    have h1 : listenerStep f = none := by simp [listenerStep, h]
    exact ⟨h1, by simp [listener, h1]⟩
  · intro hop hty
    have hfrom : LavalinkIncomingOp.fromRaw f.op = some LavalinkIncomingOp.EVENT := by
      rw [hop]; rfl
    have h1 : listenerStep f = some (Except.ok []) := by
      simp [listenerStep, hfrom, handleOp, hty]
    exact ⟨h1, by simp [listener, h1]⟩



/-- Witness for the C7 dropped-frames theorem at two concrete frames. -/
theorem unknown_frames_dropped_witness :
    (listenerStep frameUnknownOp = none ∧
      listener [InMsg.frame frameUnknownOp] = listener []) ∧
    (listenerStep frameUnknownType = some (Except.ok []) ∧
      listener [InMsg.frame frameUnknownType] = Except.ok [] :: listener []) :=
  ⟨(unknown_frames_dropped frameUnknownOp []).1 rfl,
   (unknown_frames_dropped frameUnknownType []).2 rfl rfl⟩

/-- A playerUpdate state object with a missing required key makes the
keyword expansion raise. -/
theorem decodeState_error (o : Option StateObj)
    (h : o = none ∨ ∃ s, o = some s ∧ (s.position = none ∨ s.time = none)) :
    decodeState o = Except.error () := by
  rcases h with rfl | ⟨⟨pos, tm⟩, rfl, hs⟩
  · rfl
  · rcases hs with h | h
    · have hp : pos = none := h
      subst hp
      cases tm <;> rfl
    · have ht : tm = none := h
      subst ht
      cases pos <;> rfl

/-- A stats memory object with a missing required key makes the keyword
expansion raise. -/
theorem decodeMemory_error (o : Option MemoryObj)
    (h : o = none ∨ ∃ m, o = some m ∧
      (m.reservable = none ∨ m.used = none ∨ m.free = none ∨ m.allocated = none)) :
    decodeMemory o = Except.error () := by
  rcases h with rfl | ⟨⟨r, u, fr, a⟩, rfl, hs⟩
  · rfl
  · rcases hs with h | h | h | h
    · have hr : r = none := h
      subst hr
      cases u <;> cases fr <;> cases a <;> rfl
    · have hu : u = none := h
      subst hu
      cases r <;> cases fr <;> cases a <;> rfl
    · have hf : fr = none := h
      subst hf
      cases r <;> cases u <;> cases a <;> rfl
    · have ha : a = none := h
      subst ha
      cases r <;> cases u <;> cases fr <;> rfl

/-- A stats cpu object with a missing required key makes the keyword
expansion raise. -/
theorem decodeCPU_error (o : Option CPUObj)
    (h : o = none ∨ ∃ c, o = some c ∧
      (c.cores = none ∨ c.systemLoad = none ∨ c.lavalinkLoad = none)) :
    decodeCPU o = Except.error () := by
  rcases h with rfl | ⟨⟨c, s, l⟩, rfl, hs⟩
  · rfl
  · rcases hs with h | h | h
    · have hc : c = none := h
      subst hc
      cases s <;> cases l <;> rfl
    · have hsl : s = none := h
      subst hsl
      cases c <;> cases l <;> rfl
    · have hl : l = none := h
      subst hl
      cases c <;> cases s <;> rfl

/-- C8 (amended): a playerUpdate frame missing the state object or one of
its two keys, and a stats frame missing the memory or cpu object or one of
their keys, make the dispatch task fail; the failure stays inside that
frame's dispatch result and the receive loop still processes the remaining
frames (dispatch never touches the connection state).  Missing stats keys
that are stored without keyword expansion (players, playingPlayers, uptime)
do not fail (see the counterexample). -/
theorem malformed_frame_dispatch (f : RawFrame) (rest : List InMsg) :
    (f.op = some "playerUpdate" →
      (f.state = none ∨ ∃ s, f.state = some s ∧ (s.position = none ∨ s.time = none)) →
      handleOp LavalinkIncomingOp.PLAYER_UPDATE f = Except.error () ∧
      listener (InMsg.frame f :: rest) = Except.error () :: listener rest) ∧
    (f.op = some "stats" →
      ((f.memory = none ∨ ∃ m, f.memory = some m ∧
          (m.reservable = none ∨ m.used = none ∨ m.free = none ∨ m.allocated = none)) ∨
       (f.cpu = none ∨ ∃ c, f.cpu = some c ∧
          (c.cores = none ∨ c.systemLoad = none ∨ c.lavalinkLoad = none))) →
      handleOp LavalinkIncomingOp.STATS f = Except.error () ∧
      listener (InMsg.frame f :: rest) = Except.error () :: listener rest) := by
  constructor
  · intro hop hmiss
    have hdec : decodeState f.state = Except.error () := decodeState_error f.state hmiss
    have h1 : handleOp LavalinkIncomingOp.PLAYER_UPDATE f = Except.error () := by
      simp [handleOp, hdec]
    have hfrom : LavalinkIncomingOp.fromRaw f.op
        = some LavalinkIncomingOp.PLAYER_UPDATE := by
      rw [hop]; rfl
    exact ⟨h1, by simp [listener, listenerStep, hfrom, h1]⟩
  · intro hop hmiss
    have h1 : handleOp LavalinkIncomingOp.STATS f = Except.error () := by
      rcases hmiss with hm | hc
      · have hmerr := decodeMemory_error f.memory hm
        simp [handleOp, hmerr]
      · have hcerr := decodeCPU_error f.cpu hc
        cases hd : decodeMemory f.memory with
        | error e => simp [handleOp, hd, hcerr]
        | ok m => simp [handleOp, hd, hcerr]
    have hfrom : LavalinkIncomingOp.fromRaw f.op = some LavalinkIncomingOp.STATS := by
      rw [hop]; rfl
    exact ⟨h1, by simp [listener, listenerStep, hfrom, h1]⟩


/-- Witness for the amended C8 theorem at a concrete frame. -/
theorem malformed_frame_dispatch_witness :
    handleOp LavalinkIncomingOp.PLAYER_UPDATE frameNoState = Except.error () ∧
    listener [InMsg.frame frameNoState] = Except.error () :: listener [] :=
  (malformed_frame_dispatch frameNoState []).1 rfl (Or.inl rfl)


/-- C8 counterexample: a stats frame missing its required players field (and
playingPlayers and uptime) does not fail to decode; the dispatch succeeds
and invokes the callback with the missing values stored as None. -/
theorem stats_missing_players_cex :
    statsNoPlayers.players = none ∧
    handleOp LavalinkIncomingOp.STATS statsNoPlayers =
      Except.ok [(LavalinkIncomingOp.STATS,
        Decoded.stats { memory := { reservable := 1, used := 2, free := 3, allocated := 4 },
                        players := none,
                        active_players := none,
                        cpu_info := { cores := 1, systemLoad := 2, lavalinkLoad := 3 },
                        uptime := none },
        statsNoPlayers)] :=
  ⟨rfl, rfl⟩

/-- C5: when the shutdown flag is observed set, the reconnect task spawned
at a listener exit returns at once: no connection attempt is made, the
process state (including every transport handle) is untouched, and the node
does not re-enter the Connecting state. -/
theorem no_reconnect_after_shutdown (g : GlobalState) (n : Nat) (h : g.shutdown = true) :
    reconnect g n = (g, false) := by
  simp [reconnect, h]

/-- Witness for the C5 shutdown-halts-retry theorem at a concrete state whose
transport has closed. -/
theorem no_reconnect_after_shutdown_witness :
    reconnect { shutdown := true, registry := [(3, [])],
                conns := [(3, { ws := some false, queue := [], sent := [] })] } 3
      = ({ shutdown := true, registry := [(3, [])],
           conns := [(3, { ws := some false, queue := [], sent := [] })] }, false) :=
  no_reconnect_after_shutdown _ 3 rfl

/-- Every branch of `disconnect` sets the shutdown flag. -/
theorem disconnect_sets_shutdown (g : GlobalState) (n : Nat) :
    (disconnect g n).1.shutdown = true := by
  unfold disconnect
  cases hc : lookupConn g.conns n with
  | none => rfl
  | some r =>
    cases hw : r.ws with
    | none => simp [hw]
    | some b =>
      by_cases hreg : (g.registry.any fun p => p.1 == n) = true
      · simp [hw, hreg]
      · simp [hw, hreg]

/-- C10: `connect` on any node clears the process-wide shutdown flag
unconditionally; hence after `disconnect` on node `n1` (which sets it), a
`connect` on any node `n2` leaves the flag un-set, and a subsequent
listener-exit reconnect check on `n1` observes shutdown as not signalled
and attempts to reconnect. -/
theorem connect_clears_shutdown (g : GlobalState) (n1 n2 : Nat) :
    (connect g n2).shutdown = false ∧
    (disconnect g n1).1.shutdown = true ∧
    (connect (disconnect g n1).1 n2).shutdown = false ∧
    (reconnect (connect (disconnect g n1).1 n2) n1).2 = true := by
  refine ⟨rfl, disconnect_sets_shutdown g n1, rfl, ?_⟩
  simp [reconnect, connect]

/-- Updating node `n`'s connection object is visible through a lookup of
`n`. -/
theorem lookupConn_setConn (n : Nat) (f : NodeRec → NodeRec) :
    ∀ (l : List (Nat × NodeRec)) (r : NodeRec), lookupConn l n = some r →
      lookupConn (setConn n f l) n = some (f r) := by
  intro l
  induction l with
  | nil => intro r h; simp [lookupConn] at h
  | cons hd rest ih =>
    intro r h
    show lookupConn ((if hd.1 = n then (hd.1, f hd.2) else hd) :: setConn n f rest) n
      = some (f r)
    by_cases hn : hd.1 = n
    · have hb : (hd.1 == n) = true := by simp [hn]
      rw [if_pos hn]
      have h2 : hd.2 = r := by
        simpa [lookupConn, List.find?, hb] using h
      simp [lookupConn, List.find?, hb, h2]
    · have hb : (hd.1 == n) = false := by simp [hn]
      rw [if_neg hn]
      have h2 : lookupConn rest n = some r := by
        simpa [lookupConn, List.find?, hb] using h
      simpa [lookupConn, List.find?, hb] using ih r h2

/-- C9 (amended): on a node whose transport handle exists (the node
connected at least once) and which is registered, `disconnect` reports
success, sets the process-wide shutdown flag, removes the node and its
assignment set from the registry while keeping every other node's entry,
and leaves the node's transport closed.  For a node whose transport was
never opened the call fails instead (see the counterexample). -/
theorem disconnect_shuts_down (g : GlobalState) (n : Nat) (r : NodeRec) (b : Bool)
    (hc : lookupConn g.conns n = some r) (hws : r.ws = some b)
    (hreg : (g.registry.any fun p => p.1 == n) = true) :
    (disconnect g n).2 = true ∧
    (disconnect g n).1.shutdown = true ∧
    (∀ p ∈ (disconnect g n).1.registry, p.1 ≠ n) ∧
    (∀ p ∈ g.registry, p.1 ≠ n → p ∈ (disconnect g n).1.registry) ∧
    lookupConn (disconnect g n).1.conns n = some { r with ws := some false } := by
  have hd : disconnect g n =
      ({ g with shutdown := true,
                conns := setConn n closeWs g.conns,
                registry := g.registry.filter fun p => p.1 != n }, true) := by
    simp [disconnect, hc, hws, hreg]
  rw [hd]
  refine ⟨rfl, rfl, ?_, ?_, ?_⟩
  · intro p hp
    have hpn := List.of_mem_filter hp
    simpa using hpn
  · intro p hp hpn
    exact List.mem_filter.mpr ⟨hp, by simpa using hpn⟩
  · exact lookupConn_setConn n closeWs g.conns r hc


/-- Witness for the amended C9 theorem at a concrete connected node. -/
theorem disconnect_shuts_down_witness :
    (disconnect gOpen 5).2 = true ∧
    (disconnect gOpen 5).1.shutdown = true ∧
    (∀ p ∈ (disconnect gOpen 5).1.registry, p.1 ≠ 5) ∧
    (∀ p ∈ gOpen.registry, p.1 ≠ 5 → p ∈ (disconnect gOpen 5).1.registry) ∧
    lookupConn (disconnect gOpen 5).1.conns 5
      = some { ws := some false, queue := [], sent := [] } :=
  disconnect_shuts_down gOpen 5 { ws := some true, queue := [], sent := [] } true rfl rfl rfl


/-- C9 counterexample: `disconnect` on a registered node whose transport was
never opened fails (the `AttributeError` from `None.close()`) after setting
the shutdown flag; the node is not removed from the registry. -/
theorem disconnect_never_connected_cex :
    disconnect gNoWs 5 = ({ gNoWs with shutdown := true }, false) ∧
    (disconnect gNoWs 5).1.registry = [(5, [7])] :=
  ⟨rfl, rfl⟩

end RedLavalink
